import Mathlib

/-!
Verification of the reactive dataflow / event-dispatch core of the
curses-game-engine repository (src/cget/base.py, src/lib/base.py).

The embedding models:
 * the reactive `Var` cell (fields `_last_value`, `_new_value`, `_changed`,
   `_handlers`, `_subscribers`, `_subvars`) and its operations `change`,
   `value`, `subscribe`, `watch`, `derive`, `concat`, `on_tick`;
 * the `Widget.dispatch` / `bubble` protocol (for `Group` / `Reactive`);
 * the `e_change` registry (`_E_CHANGE.setdefault(prefix, _t)`).

A world is a list of var states addressed by creation index.  Handler and
subscriber closures appearing in the source are defunctionalised into the
`Handler` and `SubCb` inductives; the dynamic semantics is a fuel-indexed
interpreter `exec` that also records, as a trace, every subscriber
notification `callback(self._last_value)` performed by `on_tick`.
Weak references are modelled as always alive (nothing is collected in the
scenarios considered).
-/

/-- Payload values flowing through the dataflow graph (Python objects). -/
inductive Val where
  | unit : Val
  | int : Int → Val
  | pair : Val → Val → Val
  deriving DecidableEq, Repr

/-- Event-key tokens used by the Var layer.  `tick` is `E_TICK`; `change`,
`changeT` and `changeU` are the keys the `_E_CHANGE` registry yields for the
prefixes "base._change", "base.change_t" and "base.change_u" (the registry
itself is modelled separately for claim C3; it stores one key per prefix). -/
inductive Key where
  | tick | change | changeT | changeU
  deriving DecidableEq, BEq, Repr

/-- Defunctionalised handler closures registered on vars.
`onTickH` is the `lambda _: self.on_tick()` registered in `Var.__init__`;
`deriveH f dv` is `derive`'s `on_change` (`dv.change(fn(new_value)); dv.on_tick()`);
`concatTH cv` / `concatUH cv` are `concat`'s `on_t_change` / `on_u_change`
(`cv.change((new_value, cv._new_value[1]))` and symmetrically). -/
inductive Handler where
  | onTickH : Handler
  | deriveH : (Val → Val) → Nat → Handler
  | concatTH : Nat → Handler
  | concatUH : Nat → Handler

/-- Defunctionalised subscriber callbacks stored in `_subscribers`.
`propagate key target` is `subscribe`'s `propagate_change` closure
(`w.dispatch(key, payload)` on the weakly-held widget, modelled alive);
`watcher wid` is a passive `watch` callback (it only observes, the
notification itself is recorded in the trace); `watchChange tgt f` is a
`watch` callback that re-enters `tgt.change(f payload)` when notified. -/
inductive SubCb where
  | propagate : Key → Nat → SubCb
  | watcher : Nat → SubCb
  | watchChange : Nat → (Val → Val) → SubCb

/-- State of one `Var` object (`src/cget/base.py`, `Var.__init__`). -/
structure VarState where
  name : String
  lastValue : Val
  newValue : Val
  changed : Bool
  handlers : List (Key × Handler)
  subscribers : List SubCb
  subvars : List Nat

/-- A world is the list of all vars, addressed by creation index. -/
abbrev World := List VarState

/-- Notification events: `(source var, subscriber position, payload)` for
each `callback(self._last_value)` call in `on_tick`'s notify loop. -/
abbrev TEvent := Nat × Nat × Val

abbrev Trace := List TEvent

/-- Var.__init__: both values start at `initial`, `_changed` is false, and
the tick handler `lambda _: self.on_tick()` is registered. -/
def mkVarState (name : String) (initial : Val) : VarState :=
  { name := name, lastValue := initial, newValue := initial, changed := false,
    handlers := [(Key.tick, Handler.onTickH)], subscribers := [], subvars := [] }

/-- Var.value: `return self._last_value`. -/
def value (w : World) (i : Nat) : Option Val :=
  (w[i]?).map (fun s => s.lastValue)

/-- Var.change: `self._changed = True; self._new_value = payload`.
A pure local mutation of var `i`; it produces no trace and touches no
other var. -/
def change (i : Nat) (v : Val) (w : World) : World :=
  match w[i]? with
  | none => w
  | some s => w.set i { s with changed := true, newValue := v }

/-- Widget.register: `self._handlers[key] = handler` (dict assignment:
overwrite if present, else append). -/
def setH (k : Key) (h : Handler) : List (Key × Handler) → List (Key × Handler)
  | [] => [(k, h)]
  | (k', h') :: rest => if k = k' then (k, h) :: rest else (k', h') :: setH k h rest

/-- Register a handler on var `i`. -/
def registerH (i : Nat) (k : Key) (h : Handler) (w : World) : World :=
  match w[i]? with
  | none => w
  | some s => w.set i { s with handlers := setH k h s.handlers }

/-- Append a callback to var `i`'s `_subscribers` list. -/
def appendSub (i : Nat) (sub : SubCb) (w : World) : World :=
  match w[i]? with
  | none => w
  | some s => w.set i { s with subscribers := s.subscribers ++ [sub] }

/-- Append a weak reference to var `i`'s `_subvars` (dependents) list. -/
def appendSubvar (i : Nat) (j : Nat) (w : World) : World :=
  match w[i]? with
  | none => w
  | some s => w.set i { s with subvars := s.subvars ++ [j] }

/-- Var.watch: `self._subscribers.append(cb)` — no immediate dispatch. -/
def watch (i : Nat) (sub : SubCb) (w : World) : World :=
  appendSub i sub w

/-- Tasks of the interpreter: ticking a var, dispatching an event to a var,
running one handler, running one subscriber callback, the notify loop over
`_subscribers` and the dependents loop over `_subvars`. -/
inductive Job where
  | tick : Nat → Job
  | dispatchT : Nat → Key → Val → Job
  | handlerT : Nat → Handler → Val → Job
  | runSubT : Nat → SubCb → Val → Job
  | notifyT : Nat → Nat → List SubCb → Job
  | subvarsT : List Nat → Job

/-- Fuel-indexed interpreter for the Var layer of `src/cget/base.py`.

`tick i` is `Var.on_tick`: return unless `_changed`; recursively tick the
`_subvars`; commit `_last_value = _new_value; _changed = False`; then call
every subscriber callback with the current `_last_value` (re-read at each
call, as Python does).  `dispatchT` is `Widget.dispatch`: run the handler
registered for the key, else `bubble` — `Var` does not override `bubble`,
so an unhandled event is silently dropped.  The subscriber and dependents
lists are read once at loop entry (no handler in this development mutates
them re-entrantly, matching the source closures).  Fuel exhaustion yields
`none`; all theorems supply sufficient fuel. -/
def exec : Nat → Job → World → Option (World × Trace)
  | 0, _, _ => none
  | fuel + 1, t, w =>
    match t with
    | Job.tick i =>
      match w[i]? with
      | none => none
      | some s =>
        if s.changed = false then some (w, [])
        else
          match exec fuel (Job.subvarsT s.subvars) w with
          | none => none
          | some (w1, t1) =>
            match w1[i]? with
            | none => none
            | some s1 =>
              let w2 := w1.set i { s1 with lastValue := s1.newValue, changed := false }
              match exec fuel (Job.notifyT i 0 s1.subscribers) w2 with
              | none => none
              | some (w3, t2) => some (w3, t1 ++ t2)
    | Job.subvarsT [] => some (w, [])
    | Job.subvarsT (j :: rest) =>
      match exec fuel (Job.tick j) w with
      | none => none
      | some (w1, t1) =>
        match exec fuel (Job.subvarsT rest) w1 with
        | none => none
        | some (w2, t2) => some (w2, t1 ++ t2)
    | Job.notifyT _ _ [] => some (w, [])
    | Job.notifyT src idx (sub :: rest) =>
      match w[src]? with
      | none => none
      | some s =>
        match exec fuel (Job.runSubT src sub s.lastValue) w with
        | none => none
        | some (w1, t1) =>
          match exec fuel (Job.notifyT src (idx + 1) rest) w1 with
          | none => none
          | some (w2, t2) => some (w2, (src, idx, s.lastValue) :: (t1 ++ t2))
    | Job.runSubT _ sub v =>
      match sub with
      | SubCb.propagate key tgt => exec fuel (Job.dispatchT tgt key v) w
      | SubCb.watcher _ => some (w, [])
      | SubCb.watchChange tgt f => some (change tgt (f v) w, [])
    | Job.dispatchT i key payload =>
      match w[i]? with
      | none => none
      | some s =>
        match s.handlers.lookup key with
        | some h => exec fuel (Job.handlerT i h payload) w
        | none => some (w, [])
    | Job.handlerT i h payload =>
      match h with
      | Handler.onTickH => exec fuel (Job.tick i) w
      | Handler.deriveH f dv => exec fuel (Job.tick dv) (change dv (f payload) w)
      | Handler.concatTH cv =>
        match w[cv]? with
        | none => none
        | some s =>
          match s.newValue with
          | Val.pair _ b => some (change cv (Val.pair payload b) w, [])
          | _ => none
      | Handler.concatUH cv =>
        match w[cv]? with
        | none => none
        | some s =>
          match s.newValue with
          | Val.pair a _ => some (change cv (Val.pair a payload) w, [])
          | _ => none

/-- Var.subscribe: append the `propagate_change` closure, then immediately
`widget.dispatch(key, self._last_value)`. -/
def subscribeOp (fuel : Nat) (src : Nat) (key : Key) (tgt : Nat) (w : World) :
    Option World :=
  match w[src]? with
  | none => none
  | some s =>
    let w1 := appendSub src (SubCb.propagate key tgt) w
    (exec fuel (Job.dispatchT tgt key s.lastValue) w1).map (fun r => r.1)

/-- Var.derive: create `dv = Var(name ++ " >> _", fn(last_value))`, register
its `on_change` handler on the change key, then `self.subscribe(k, dv)`.
Note: `derive` does NOT touch `self._subvars`. -/
def deriveOp (fuel : Nat) (src : Nat) (f : Val → Val) (w : World) : Option World :=
  match w[src]? with
  | none => none
  | some s =>
    let dv := w.length
    let w1 := w ++ [mkVarState (s.name ++ " >> _") (f s.lastValue)]
    let w2 := registerH dv Key.change (Handler.deriveH f dv) w1
    subscribeOp fuel src Key.change dv w2

/-- Var.concat: create the pair var, register `on_t_change` / `on_u_change`
for the two change keys, subscribe it to both sources (each subscription
dispatches the source's current value immediately), then append it to both
sources' `_subvars` dependents lists. -/
def concatOp (fuel : Nat) (a b : Nat) (w : World) : Option World :=
  match w[a]?, w[b]? with
  | some sa, some sb =>
    let cv := w.length
    let w1 := w ++ [mkVarState (sa.name ++ " * " ++ sb.name)
                      (Val.pair sa.lastValue sb.lastValue)]
    let w2 := registerH cv Key.changeT (Handler.concatTH cv) w1
    let w3 := registerH cv Key.changeU (Handler.concatUH cv) w2
    match subscribeOp fuel a Key.changeT cv w3 with
    | none => none
    | some w4 =>
      match subscribeOp fuel b Key.changeU cv w4 with
      | none => none
      | some w5 => some (appendSubvar b cv (appendSubvar a cv w5))
  | _, _ => none

/-- One frame tick delivered to a list of widgets in order, as a `Group`
holding the vars forwards `E_TICK` to each child in list order. -/
def tickSeq (fuel : Nat) : List Nat → World → Option (World × Trace)
  | [], w => some (w, [])
  | i :: rest, w =>
    match exec fuel (Job.dispatchT i Key.tick Val.unit) w with
    | none => none
    | some (w1, t1) =>
      match tickSeq fuel rest w1 with
      | none => none
      | some (w2, t2) => some (w2, t1 ++ t2)


/-! Step equations for `exec`, one per interpreter case; after these are
established `exec` is made irreducible and all reasoning goes through them. -/

theorem exec_tick_eq (n : Nat) (i : Nat) (w : World) :
    exec (n + 1) (Job.tick i) w =
      match w[i]? with
      | none => none
      | some s =>
        if s.changed = false then some (w, [])
        else
          match exec n (Job.subvarsT s.subvars) w with
          | none => none
          | some (w1, t1) =>
            match w1[i]? with
            | none => none
            | some s1 =>
              match exec n (Job.notifyT i 0 s1.subscribers)
                  (w1.set i { s1 with lastValue := s1.newValue, changed := false }) with
              | none => none
              | some (w3, t2) => some (w3, t1 ++ t2) := rfl

theorem exec_subvars_nil (n : Nat) (w : World) :
    exec (n + 1) (Job.subvarsT []) w = some (w, []) := rfl

theorem exec_subvars_cons (n : Nat) (j : Nat) (rest : List Nat) (w : World) :
    exec (n + 1) (Job.subvarsT (j :: rest)) w =
      match exec n (Job.tick j) w with
      | none => none
      | some (w1, t1) =>
        match exec n (Job.subvarsT rest) w1 with
        | none => none
        | some (w2, t2) => some (w2, t1 ++ t2) := rfl

theorem exec_notify_nil (n : Nat) (src idx : Nat) (w : World) :
    exec (n + 1) (Job.notifyT src idx []) w = some (w, []) := rfl

theorem exec_notify_cons (n : Nat) (src idx : Nat) (sub : SubCb) (rest : List SubCb)
    (w : World) :
    exec (n + 1) (Job.notifyT src idx (sub :: rest)) w =
      match w[src]? with
      | none => none
      | some s =>
        match exec n (Job.runSubT src sub s.lastValue) w with
        | none => none
        | some (w1, t1) =>
          match exec n (Job.notifyT src (idx + 1) rest) w1 with
          | none => none
          | some (w2, t2) => some (w2, (src, idx, s.lastValue) :: (t1 ++ t2)) := rfl

theorem exec_runsub_prop (n : Nat) (src : Nat) (k : Key) (tgt : Nat) (v : Val) (w : World) :
    exec (n + 1) (Job.runSubT src (SubCb.propagate k tgt) v) w =
      exec n (Job.dispatchT tgt k v) w := rfl

theorem exec_runsub_watcher (n : Nat) (src j : Nat) (v : Val) (w : World) :
    exec (n + 1) (Job.runSubT src (SubCb.watcher j) v) w = some (w, []) := rfl

theorem exec_runsub_wchange (n : Nat) (src tgt : Nat) (f : Val → Val) (v : Val) (w : World) :
    exec (n + 1) (Job.runSubT src (SubCb.watchChange tgt f) v) w =
      some (change tgt (f v) w, []) := rfl

theorem exec_dispatch_eq (n : Nat) (i : Nat) (k : Key) (p : Val) (w : World) :
    exec (n + 1) (Job.dispatchT i k p) w =
      match w[i]? with
      | none => none
      | some s =>
        match s.handlers.lookup k with
        | some h => exec n (Job.handlerT i h p) w
        | none => some (w, []) := rfl

theorem exec_handler_ontick (n : Nat) (i : Nat) (p : Val) (w : World) :
    exec (n + 1) (Job.handlerT i Handler.onTickH p) w = exec n (Job.tick i) w := rfl

theorem exec_handler_derive (n : Nat) (i : Nat) (f : Val → Val) (dv : Nat) (p : Val)
    (w : World) :
    exec (n + 1) (Job.handlerT i (Handler.deriveH f dv) p) w =
      exec n (Job.tick dv) (change dv (f p) w) := rfl

theorem exec_handler_concatT (n : Nat) (i cv : Nat) (p : Val) (w : World) :
    exec (n + 1) (Job.handlerT i (Handler.concatTH cv) p) w =
      match w[cv]? with
      | none => none
      | some s =>
        match s.newValue with
        | Val.pair _ b => some (change cv (Val.pair p b) w, [])
        | _ => none := rfl

theorem exec_handler_concatU (n : Nat) (i cv : Nat) (p : Val) (w : World) :
    exec (n + 1) (Job.handlerT i (Handler.concatUH cv) p) w =
      match w[cv]? with
      | none => none
      | some s =>
        match s.newValue with
        | Val.pair a _ => some (change cv (Val.pair a p) w, [])
        | _ => none := rfl

attribute [irreducible] exec

/-! Small computation helpers used throughout the evaluation proofs. -/

theorem key_beq (a b : Key) : (a == b) = decide (a = b) := by
  cases a <;> cases b <;> rfl

theorem setH_tick (h : Handler) :
    setH Key.change h [(Key.tick, Handler.onTickH)] =
      [(Key.tick, Handler.onTickH), (Key.change, h)] := rfl

theorem lookup_change (h2 : Handler) (rest : List (Key × Handler)) :
    List.lookup Key.change ((Key.tick, Handler.onTickH) :: (Key.change, h2) :: rest) =
      some h2 := rfl

theorem lookup_tick (h : Handler) (rest : List (Key × Handler)) :
    List.lookup Key.tick ((Key.tick, h) :: rest) = some h := rfl

theorem ite_tf {A : Type} (a b : A) : (if (true = false) then a else b) = b := by simp

theorem get_app1 (pre : List VarState) (a : VarState) (t : List VarState) :
    (pre ++ a :: t)[pre.length]? = some a := by
  induction pre with
  | nil => simp
  | cons p pre ih => simpa using ih

theorem get_app2 (pre : List VarState) (a b : VarState) (t : List VarState) :
    (pre ++ a :: b :: t)[pre.length + 1]? = some b := by
  induction pre with
  | nil => simp
  | cons p pre ih => simpa using ih

theorem set_app1 (pre : List VarState) (a x : VarState) (t : List VarState) :
    (pre ++ a :: t).set pre.length x = pre ++ x :: t := by
  induction pre with
  | nil => rfl
  | cons p pre ih => simp [ih]

theorem set_app2 (pre : List VarState) (a b x : VarState) (t : List VarState) :
    (pre ++ a :: b :: t).set (pre.length + 1) x = pre ++ a :: x :: t := by
  induction pre with
  | nil => rfl
  | cons p pre ih => simp [ih]

/-! Derive chains.  `chainFrom nm i x extra fs` is the post-construction
world segment for a chain of `derive` vars starting at index `i`: each var
holds the composition of the prefix of `fs` applied to the root value, has
the tick handler plus (for derived vars) the change handler carrying its
mapping function, and subscribes its successor on the change key. -/

def chainNode (nm : String) (x : Val) (extra : List (Key × Handler))
    (subs : List SubCb) : VarState :=
  { name := nm, lastValue := x, newValue := x, changed := false,
    handlers := (Key.tick, Handler.onTickH) :: extra, subscribers := subs, subvars := [] }

def chainFrom (nm : String) (i : Nat) (x : Val) (extra : List (Key × Handler)) :
    List (Val → Val) → List VarState
  | [] => [chainNode nm x extra []]
  | f :: fs =>
    chainNode nm x extra [SubCb.propagate Key.change (i + 1)] ::
      chainFrom (nm ++ " >> _") (i + 1) (f x) [(Key.change, Handler.deriveH f (i + 1))] fs

def chainTrace (i : Nat) (x : Val) : List (Val → Val) → Trace
  | [] => []
  | f :: fs => (i, 0, x) :: chainTrace (i + 1) (f x) fs

def applyChain : List (Val → Val) → Val → Val
  | [], x => x
  | f :: fs, x => applyChain fs (f x)

theorem deriveOp_chainNode (pre : List VarState) (nm : String) (x : Val)
    (extra : List (Key × Handler)) (f : Val → Val) :
    deriveOp 5 pre.length f (pre ++ [chainNode nm x extra []]) =
      some ((pre ++ [chainNode nm x extra [SubCb.propagate Key.change (pre.length + 1)]]) ++
        [chainNode (nm ++ " >> _") (f x) [(Key.change, Handler.deriveH f (pre.length + 1))] []]) := by
  simp only [deriveOp, get_app1]
  simp only [List.length_append, List.length_cons, List.length_nil, List.append_assoc,
    List.cons_append, List.nil_append, chainNode, Nat.zero_add]
  simp only [registerH, mkVarState, get_app2, set_app2, setH_tick]
  simp only [subscribeOp, appendSub, get_app1, set_app1, List.nil_append,
    exec_dispatch_eq, exec_handler_derive, exec_tick_eq, exec_subvars_nil, exec_notify_nil,
    get_app2, set_app2, lookup_change, change, List.append_nil, ite_tf]
  simp

def buildChainAux : List (Val → Val) → World → Option World
  | [], w => some w
  | f :: rest, w =>
    match deriveOp 5 (w.length - 1) f w with
    | none => none
    | some w1 => buildChainAux rest w1

/-- Construction of a derive chain from the source operations: start from
`Var("v", x0)` and repeatedly call `derive` on the most recent var. -/
def buildChain (x0 : Val) (fs : List (Val → Val)) : Option World :=
  buildChainAux fs [mkVarState "v" x0]

theorem buildChainAux_eq (fs : List (Val → Val)) :
    ∀ (pre : List VarState) (nm : String) (x : Val) (extra : List (Key × Handler)),
    buildChainAux fs (pre ++ [chainNode nm x extra []]) =
      some (pre ++ chainFrom nm pre.length x extra fs) := by
  induction fs with
  | nil => intro pre nm x extra; simp [buildChainAux, chainFrom]
  | cons f rest ih =>
    intro pre nm x extra
    simp only [buildChainAux]
    have hlen : (pre ++ [chainNode nm x extra []]).length - 1 = pre.length := by simp
    rw [hlen, deriveOp_chainNode]
    simp only []
    rw [ih (pre ++ [chainNode nm x extra [SubCb.propagate Key.change (pre.length + 1)]])
      (nm ++ " >> _") (f x) [(Key.change, Handler.deriveH f (pre.length + 1))]]
    simp [chainFrom, List.append_assoc]

theorem chain_prop (fs : List (Val → Val)) :
    ∀ (m : Nat) (pre : List VarState) (nm : String) (xOld x : Val) (f : Val → Val),
    exec (5 * fs.length + m + 5) (Job.dispatchT pre.length Key.change x)
      (pre ++ chainFrom nm pre.length xOld [(Key.change, Handler.deriveH f pre.length)] fs) =
    some (pre ++ chainFrom nm pre.length (f x) [(Key.change, Handler.deriveH f pre.length)] fs,
      chainTrace pre.length (f x) fs) := by
  induction fs with
  | nil =>
    intro m pre nm xOld x f
    simp only [List.length_nil, Nat.mul_zero, Nat.zero_add, chainFrom, chainTrace]
    rw [exec_dispatch_eq]
    simp only [get_app1, chainNode, lookup_change]
    rw [exec_handler_derive]
    simp only [change, get_app1, set_app1]
    rw [exec_tick_eq]
    simp only [get_app1, ite_tf, exec_subvars_nil, set_app1, exec_notify_nil]
    simp
  | cons g rest ih =>
    intro m pre nm xOld x f
    have hfuel : 5 * (g :: rest).length + m + 5 = 5 * rest.length + m + 10 := by
      simp [List.length_cons]; ring
    rw [hfuel]
    simp only [chainFrom]
    rw [exec_dispatch_eq]
    simp only [get_app1, chainNode, lookup_change]
    rw [exec_handler_derive]
    simp only [change, get_app1, set_app1]
    rw [exec_tick_eq]
    simp only [get_app1, ite_tf, exec_subvars_nil, set_app1]
    rw [exec_notify_cons]
    simp only [get_app1]
    rw [exec_runsub_prop]
    have IH2 := ih m
      (pre ++ [({ name := nm, lastValue := f x, newValue := f x, changed := false,
                  handlers := [(Key.tick, Handler.onTickH),
                    (Key.change, Handler.deriveH f pre.length)],
                  subscribers := [SubCb.propagate Key.change (pre.length + 1)],
                  subvars := [] } : VarState)])
      (nm ++ " >> _") (g xOld) (f x) g
    simp only [List.length_append, List.length_cons, List.length_nil, Nat.zero_add,
      List.append_assoc, List.cons_append, List.nil_append] at IH2
    rw [IH2]
    simp only [exec_notify_nil]
    simp [chainTrace]

theorem chain_tick_root (fs : List (Val → Val)) :
    ∀ (m : Nat) (pre : List VarState) (nm : String) (x xOld : Val),
    exec (5 * fs.length + m + 5) (Job.dispatchT pre.length Key.tick Val.unit)
      (change pre.length x (pre ++ chainFrom nm pre.length xOld [] fs)) =
    some (pre ++ chainFrom nm pre.length x [] fs, chainTrace pre.length x fs) := by
  cases fs with
  | nil =>
    intro m pre nm x xOld
    simp only [chainFrom, chainTrace, List.length_nil, Nat.mul_zero, Nat.zero_add]
    simp only [change, get_app1, set_app1]
    rw [exec_dispatch_eq]
    simp only [get_app1, chainNode, lookup_tick]
    rw [exec_handler_ontick]
    rw [exec_tick_eq]
    simp only [get_app1, ite_tf, exec_subvars_nil, set_app1, exec_notify_nil]
    simp
  | cons g rest =>
    intro m pre nm x xOld
    have hfuel : 5 * (g :: rest).length + m + 5 = 5 * rest.length + m + 10 := by
      simp [List.length_cons]; ring
    rw [hfuel]
    simp only [chainFrom]
    simp only [change, get_app1, set_app1]
    rw [exec_dispatch_eq]
    simp only [get_app1, chainNode, lookup_tick]
    rw [exec_handler_ontick]
    rw [exec_tick_eq]
    simp only [get_app1, ite_tf, exec_subvars_nil, set_app1]
    rw [exec_notify_cons]
    simp only [get_app1]
    rw [exec_runsub_prop]
    have P := chain_prop rest m
      (pre ++ [({ name := nm, lastValue := x, newValue := x, changed := false,
                  handlers := [(Key.tick, Handler.onTickH)],
                  subscribers := [SubCb.propagate Key.change (pre.length + 1)],
                  subvars := [] } : VarState)])
      (nm ++ " >> _") (g xOld) x g
    simp only [List.length_append, List.length_cons, List.length_nil, Nat.zero_add,
      List.append_assoc, List.cons_append, List.nil_append] at P
    rw [P]
    simp only [exec_notify_nil]
    simp [chainTrace]

theorem chainFrom_value (fs : List (Val → Val)) :
    ∀ (j : Nat) (nm : String) (i : Nat) (x : Val) (extra : List (Key × Handler)),
    j ≤ fs.length →
    ((chainFrom nm i x extra fs)[j]?).map (fun s => s.lastValue) =
      some (applyChain (fs.take j) x) := by
  induction fs with
  | nil =>
    intro j nm i x extra hj
    have : j = 0 := Nat.le_zero.mp hj
    subst this
    simp [chainFrom, chainNode, applyChain]
  | cons f rest ih =>
    intro j nm i x extra hj
    cases j with
    | zero => simp [chainFrom, chainNode, applyChain]
    | succ j' =>
      simp only [chainFrom, List.getElem?_cons_succ, List.take_succ_cons, applyChain]
      exact ih j' (nm ++ " >> _") (i + 1) (f x)
        [(Key.change, Handler.deriveH f (i + 1))] (Nat.le_of_succ_le_succ hj)

/-- Scenario for claim C1: build a derive chain from root `Var("v", x0)`
with mapping functions `fs`, call `change(x)` on the root, then deliver one
tick event to the root var only. -/
def c1Scenario (x0 x : Val) (fs : List (Val → Val)) : Option World :=
  match buildChain x0 fs with
  | none => none
  | some w0 =>
    (exec (5 * fs.length + 5) (Job.dispatchT 0 Key.tick Val.unit) (change 0 x w0)).map
      (fun r => r.1)

/-- C1 (amended): for a chain of `derive` vars of arbitrary depth built from
a root var, after `change(x)` on the root and a single tick delivered to the
root, every var `j` along the chain holds the composition of the first `j`
mapping functions applied to `x` — the chain settles fully within that tick.
(The original claim extended this to `concat` vars, which is refuted by
`C1_concat_lag_cex`.) -/
theorem C1_derive_chain_settles (fs : List (Val → Val)) (x0 x : Val) (j : Nat)
    (hj : j ≤ fs.length) :
    (c1Scenario x0 x fs).bind (fun w => value w j) = some (applyChain (fs.take j) x) := by
  have hb := buildChainAux_eq fs [] "v" x0 []
  simp only [List.nil_append, List.length_nil] at hb
  unfold c1Scenario buildChain
  rw [show [mkVarState "v" x0] = [chainNode "v" x0 [] []] from rfl]
  rw [hb]
  have R := chain_tick_root fs 0 [] "v" x x0
  simp only [Nat.add_zero, List.nil_append, List.length_nil] at R
  simp only [R, Option.map_some, Option.some_bind]
  unfold value
  exact chainFrom_value fs j "v" 0 x [] hj

def dblV : Val → Val := fun v =>
  match v with
  | Val.int n => Val.int (2 * n)
  | v => v

def incV : Val → Val := fun v =>
  match v with
  | Val.int n => Val.int (n + 1)
  | v => v

/-- Witness for C1 at a concrete chain: root 0, functions double then
increment, change to 3, one tick: the last var holds mkInt (2*3+1) = 7. -/
theorem C1_derive_chain_settles_witness :
    (c1Scenario (Val.int 0) (Val.int 3) [dblV, incV]).bind (fun w => value w 2) =
      some (Val.int 7) := by
  have h := C1_derive_chain_settles [dblV, incV] (Val.int 0) (Val.int 3) 2 (by decide)
  simpa [applyChain, dblV, incV] using h

/-- Scenario refuting the concat part of C1: `a = Var("a", 0)`,
`b = Var("b", 5)`, `cv = a.concat(b)` (var 2); one settling frame tick to
all three vars; then `a.change(1)` and ONE tick delivered to the root `a`
only, as the claim stipulates. -/
def c1ConcatRun : Option World :=
  match concatOp 5 0 1 [mkVarState "a" (Val.int 0), mkVarState "b" (Val.int 5)] with
  | none => none
  | some w =>
    match tickSeq 8 [0, 1, 2] w with
    | none => none
    | some (w1, _) =>
      (exec 8 (Job.dispatchT 0 Key.tick Val.unit) (change 0 (Val.int 1) w1)).map
        (fun r => r.1)

/-- Counterexample to C1 as stated: after `a.change(1)` and one tick
delivered to root `a`, the combined var `cv = a.concat(b)` (reachable from
`a` both as subscriber and dependent) still reports its OLD committed pair
(0, 5), not the recomputed (1, 5); the new pair is only staged
(`_new_value = (1, 5)`, `_changed = true`) and commits on a later tick
delivered to `cv` itself. -/
theorem C1_concat_lag_cex :
    (c1ConcatRun.bind fun w => value w 2) = some (Val.pair (Val.int 0) (Val.int 5)) ∧
    (c1ConcatRun.bind fun w => (w[2]?).map (fun s => (s.newValue, s.changed))) =
      some (Val.pair (Val.int 1) (Val.int 5), true) ∧
    Val.pair (Val.int 0) (Val.int 5) ≠ Val.pair (Val.int 1) (Val.int 5) := by
  refine ⟨?_, ?_, by decide⟩ <;>
  simp [c1ConcatRun, key_beq, concatOp, deriveOp, subscribeOp, tickSeq, exec_dispatch_eq,
    exec_tick_eq, exec_subvars_nil, exec_subvars_cons, exec_notify_nil, exec_notify_cons,
    exec_runsub_prop, exec_runsub_watcher, exec_runsub_wchange, exec_handler_ontick,
    exec_handler_derive, exec_handler_concatT, exec_handler_concatU, change, registerH,
    appendSub, appendSubvar, mkVarState, setH, value, List.lookup]

/-- C2 (amended): `concat` registers the new var with BOTH sources in both
roles — as a subscriber (`propagate` entry on the matching change key) and
as a dependent (`_subvars` entry) — but `derive` registers the new var with
its source ONLY as a subscriber: the source's `_subvars` list stays empty.
(Derive instead achieves same-tick settling by calling `dv.on_tick()`
synchronously inside its change handler.) -/
theorem C2_registration (x0 a0 b0 : Val) (f : Val → Val) :
    ((deriveOp 5 0 f [mkVarState "v" x0]).bind fun w =>
        (w[0]?).map (fun s => (s.subscribers, s.subvars))) =
      some ([SubCb.propagate Key.change 1], []) ∧
    ((concatOp 5 0 1 [mkVarState "a" a0, mkVarState "b" b0]).bind fun w =>
        some ((w[0]?).map (fun s => (s.subscribers, s.subvars)),
              (w[1]?).map (fun s => (s.subscribers, s.subvars)))) =
      some (some ([SubCb.propagate Key.changeT 2], [2]),
            some ([SubCb.propagate Key.changeU 2], [2])) := by
  constructor <;>
  simp [key_beq, concatOp, deriveOp, subscribeOp, tickSeq, exec_dispatch_eq,
    exec_tick_eq, exec_subvars_nil, exec_subvars_cons, exec_notify_nil, exec_notify_cons,
    exec_runsub_prop, exec_runsub_watcher, exec_runsub_wchange, exec_handler_ontick,
    exec_handler_derive, exec_handler_concatT, exec_handler_concatU, change, registerH,
    appendSub, appendSubvar, mkVarState, setH, value, List.lookup]

/-- Counterexample to C2 as stated: `derive` creates a new var (the world
grows to two vars) yet leaves the source's `_subvars` dependents list empty
— the derived var is registered only as a subscriber, contradicting "this
holds for every var created by either operation". -/
theorem C2_derive_no_dependent_cex :
    ((deriveOp 5 0 (fun v => v) [mkVarState "v" (Val.int 1)]).map List.length) = some 2 ∧
    ((deriveOp 5 0 (fun v => v) [mkVarState "v" (Val.int 1)]).bind fun w =>
        (w[0]?).map (fun s => s.subvars)) = some [] := by
  constructor <;>
  simp [key_beq, concatOp, deriveOp, subscribeOp, tickSeq, exec_dispatch_eq,
    exec_tick_eq, exec_subvars_nil, exec_subvars_cons, exec_notify_nil, exec_notify_cons,
    exec_runsub_prop, exec_runsub_watcher, exec_runsub_wchange, exec_handler_ontick,
    exec_handler_derive, exec_handler_concatT, exec_handler_concatU, change, registerH,
    appendSub, appendSubvar, mkVarState, setH, value, List.lookup]

/-- Scenario for C7: `a = Var("a", a0)`, `b = Var("b", b0)`,
`cv = a.concat(b)`; one settling frame tick delivered to all three vars (in
creation order, as a `Group` holding them would); then only `a.change(x)`
and a second frame tick. -/
def c7Run (a0 b0 x : Val) : Option World :=
  match concatOp 5 0 1 [mkVarState "a" a0, mkVarState "b" b0] with
  | none => none
  | some w =>
    match tickSeq 8 [0, 1, 2] w with
    | none => none
    | some (w1, _) =>
      (tickSeq 8 [0, 1, 2] (change 0 x w1)).map (fun r => r.1)

/-- C7: if between two frame ticks only `a` receives a `change(x)` call,
then after the tick the combined var's pair has its `b` slot unchanged
(still `b0`) and only the `a` slot updated to `x`; the sources read `x` and
`b0` respectively. -/
theorem C7_concat_only_changed_slot (a0 b0 x : Val) :
    ((c7Run a0 b0 x).bind fun w => value w 2) = some (Val.pair x b0) ∧
    ((c7Run a0 b0 x).bind fun w => value w 0) = some x ∧
    ((c7Run a0 b0 x).bind fun w => value w 1) = some b0 := by
  refine ⟨?_, ?_, ?_⟩ <;>
  simp [c7Run, key_beq, concatOp, deriveOp, subscribeOp, tickSeq, exec_dispatch_eq,
    exec_tick_eq, exec_subvars_nil, exec_subvars_cons, exec_notify_nil, exec_notify_cons,
    exec_runsub_prop, exec_runsub_watcher, exec_runsub_wchange, exec_handler_ontick,
    exec_handler_derive, exec_handler_concatT, exec_handler_concatU, change, registerH,
    appendSub, appendSubvar, mkVarState, setH, value, List.lookup]

/-- C8: `on_tick` on a var whose `_changed` flag is clear (no `change()`
since the last commit) is a complete no-op: the world is returned unchanged
(`_last_value`, `_new_value` and `_changed` all keep their values, for every
var) and zero subscriber notifications are issued — the guard returns before
the dependents loop and the notify loop are reached. -/
theorem C8_tick_idempotent (fuel : Nat) (w : World) (i : Nat) (s : VarState)
    (hget : w[i]? = some s) (hchanged : s.changed = false) :
    exec (fuel + 1) (Job.tick i) w = some (w, []) := by
  rw [exec_tick_eq, hget]
  simp [hchanged]

/-- World of a single var after `change(4)` and one committed tick: clean
state with value 4. -/
def c8World : World :=
  [{ mkVarState "v" (Val.int 0) with lastValue := Val.int 4, newValue := Val.int 4 }]

/-- Witness for C8: the first tick on a dirty var commits and yields
`c8World`; a second tick with no intervening `change()` returns the world
unchanged with an empty notification trace. -/
theorem C8_tick_idempotent_witness :
    (exec 6 (Job.dispatchT 0 Key.tick Val.unit)
        (change 0 (Val.int 4) [mkVarState "v" (Val.int 0)])) = some (c8World, []) ∧
    exec 3 (Job.tick 0) c8World = some (c8World, []) := by
  constructor
  · simp [c8World, change, mkVarState, exec_dispatch_eq, exec_handler_ontick,
      exec_tick_eq, exec_subvars_nil, exec_notify_nil, lookup_tick, key_beq, List.lookup]
  · exact C8_tick_idempotent 2 c8World 0 _ rfl rfl

theorem value_change (w : World) (i : Nat) (x : Val) (j : Nat) :
    value (change i x w) j = value w j := by
  unfold change value
  cases hw : w[i]? with
  | none => rfl
  | some s =>
    rcases eq_or_ne i j with h | h
    · subst h
      have hlt : i < w.length := by
        by_contra hge
        rw [List.getElem?_eq_none (Nat.le_of_not_lt hge)] at hw
        exact Option.noConfusion hw
      rw [List.getElem?_set_eq_of_lt _ hlt, hw]
      rfl
    · rw [List.getElem?_set_ne h]

theorem value_foldl_change :
    ∀ (xs : List Val) (w : World), value (xs.foldl (fun w x => change 0 x w) w) 0 = value w 0 := by
  intro xs
  induction xs with
  | nil => intro w; rfl
  | cons a t ih => intro w; rw [List.foldl_cons, ih, value_change]

/-- C9: a freshly constructed var's `value()` is its initial value, and this
stays true across any number of `change()` calls before the first tick;
moreover `change(x)` is a pure local mutation — it replaces var `i` by the
same record with only `_new_value` and `_changed` updated (so `_last_value`,
the handler table, the subscriber and dependents lists are untouched, every
other var is untouched, and no dispatch or notification happens: `change`
returns only a world, producing no trace). -/
theorem C9_change_is_local_staging :
    (∀ (nm : String) (i0 : Val) (xs : List Val),
      value (xs.foldl (fun w x => change 0 x w) [mkVarState nm i0]) 0 = some i0) ∧
    (∀ (w : World) (i : Nat) (x : Val) (s : VarState), w[i]? = some s →
      change i x w = w.set i { s with newValue := x, changed := true }) := by
  constructor
  · intro nm i0 xs
    rw [value_foldl_change]
    rfl
  · intro w i x s hget
    unfold change
    rw [hget]

/-- Witness for C9: two staged changes leave the initial value visible, and
a `change` on a concrete world is exactly the local record update. -/
theorem C9_change_is_local_staging_witness :
    value (([Val.int 2, Val.int 3]).foldl (fun w x => change 0 x w)
      [mkVarState "v" (Val.int 1)]) 0 = some (Val.int 1) ∧
    change 0 (Val.int 9) [mkVarState "v" (Val.int 1)] =
      [mkVarState "v" (Val.int 1)].set 0
        { mkVarState "v" (Val.int 1) with newValue := Val.int 9, changed := true } :=
  ⟨C9_change_is_local_staging.1 "v" (Val.int 1) [Val.int 2, Val.int 3],
   C9_change_is_local_staging.2 [mkVarState "v" (Val.int 1)] 0 (Val.int 9) _ rfl⟩

/-- World for C10: one var with a passive `watch` observer followed by a
`watch` callback that re-enters `change(g(payload))` on the same var while
being notified. -/
def c10World (i0 : Val) (g : Val → Val) : World :=
  watch 0 (SubCb.watchChange 0 g) (watch 0 (SubCb.watcher 7) [mkVarState "v" i0])

/-- Expected state after one tick of the C10 world: `y` committed, the
re-entrant `change` staged (`_new_value = g y`, `_changed = true`) but not
committed. -/
def c10After (g : Val → Val) (y : Val) : World :=
  [{ name := "v", lastValue := y, newValue := g y, changed := true,
     handlers := [(Key.tick, Handler.onTickH)],
     subscribers := [SubCb.watcher 7, SubCb.watchChange 0 g], subvars := [] }]

/-- C10: the commit (move `_new_value` into `_last_value`, clear `_changed`)
happens before subscribers are notified, so a subscriber calling `change()`
on the same var during notification neither loses its write nor gets it
committed or re-notified within that tick: both subscribers see exactly one
notification carrying the committed `y` (trace `[(0,0,y),(0,1,y)]`), the
tick ends with the var dirty again holding staged `g y`, and the next tick
commits `g y`. -/
theorem C10_reentrant_change (i0 y : Val) (g : Val → Val) :
    exec 8 (Job.dispatchT 0 Key.tick Val.unit) (change 0 y (c10World i0 g)) =
      some (c10After g y, [(0, 0, y), (0, 1, y)]) ∧
    (exec 8 (Job.dispatchT 0 Key.tick Val.unit) (c10After g y)).map
        (fun r => value r.1 0) = some (some (g y)) := by
  constructor <;>
  simp [c10World, c10After, watch, appendSub, change, mkVarState, exec_dispatch_eq,
    exec_handler_ontick, exec_tick_eq, exec_subvars_nil, exec_notify_nil,
    exec_notify_cons, exec_runsub_watcher, exec_runsub_wchange, lookup_tick, key_beq,
    List.lookup, value]

/-- World for C5: one var with `k` passive `watch` subscribers, built by
repeated `Var.watch` calls. -/
def watchersWorld (k : Nat) (i0 : Val) : World :=
  (List.range k).foldl (fun w j => watch 0 (SubCb.watcher j) w) [mkVarState "v" i0]

theorem watchersWorld_eq (k : Nat) (i0 : Val) :
    watchersWorld k i0 =
      [{ mkVarState "v" i0 with subscribers := (List.range k).map SubCb.watcher }] := by
  induction k with
  | zero => simp [watchersWorld, mkVarState]
  | succ n ih =>
    unfold watchersWorld at ih ⊢
    rw [List.range_succ, List.foldl_append, ih]
    simp [watch, appendSub, List.range_succ]

/-- Trace fragment of `count` notifications from var `i` starting at
subscriber position `idx`, all carrying payload `v`. -/
def notifyEvents (i idx : Nat) (v : Val) : Nat → Trace
  | 0 => []
  | k + 1 => (i, idx, v) :: notifyEvents i (idx + 1) v k

theorem notifyEvents_payload :
    ∀ (k i idx : Nat) (v : Val) (a b : Nat) (c : Val),
    (a, b, c) ∈ notifyEvents i idx v k → c = v := by
  intro k
  induction k with
  | zero => intro i idx v a b c h; simp [notifyEvents] at h
  | succ n ih =>
    intro i idx v a b c h
    simp only [notifyEvents, List.mem_cons] at h
    rcases h with h | h
    · exact congrArg (fun p => p.2.2) h
    · exact ih i (idx + 1) v a b c h

theorem notify_watchers (l : List Nat) :
    ∀ (fuel : Nat) (i idx : Nat) (w : World) (s : VarState),
    l.length < fuel → w[i]? = some s →
    exec fuel (Job.notifyT i idx (l.map SubCb.watcher)) w =
      some (w, notifyEvents i idx s.lastValue l.length) := by
  induction l with
  | nil =>
    intro fuel i idx w s hf hget
    cases fuel with
    | zero => omega
    | succ n => rw [List.map_nil, exec_notify_nil]; rfl
  | cons a t ih =>
    intro fuel i idx w s hf hget
    cases fuel with
    | zero => omega
    | succ n =>
      cases n with
      | zero => simp at hf
      | succ m =>
        rw [List.map_cons, exec_notify_cons, hget]
        simp only [exec_runsub_watcher]
        rw [ih (m + 1) i (idx + 1) w s (by simp at hf; omega) hget]
        simp [notifyEvents]

/-- Scenario for C5: var with `k` watch subscribers; `change(x)` then
`change(y)` before any tick; then a single tick event. -/
def c5Run (k : Nat) (i0 x y : Val) : Option (World × Trace) :=
  exec (k + 5) (Job.dispatchT 0 Key.tick Val.unit)
    (change 0 y (change 0 x (watchersWorld k i0)))

/-- C5: after `change(x); change(y)` and one tick, the var's committed value
is `y` (last write wins — `x` is coalesced away), each of the `k` subscribers
receives exactly one notification during that tick (the trace is exactly one
event per subscriber position), every notification carries `y`, and when
`x ≠ y` no subscriber is ever notified with `x`. -/
theorem C5_last_write_wins (k : Nat) (i0 x y : Val) :
    c5Run k i0 x y =
      some ([{ mkVarState "v" i0 with
                 lastValue := y, newValue := y,
                 subscribers := (List.range k).map SubCb.watcher }],
            notifyEvents 0 0 y k) ∧
    (∀ (a b : Nat) (c : Val), (a, b, c) ∈ notifyEvents 0 0 y k → c = y) ∧
    (x ≠ y → ∀ (a b : Nat), (a, b, x) ∉ notifyEvents 0 0 y k) := by
  refine ⟨?_, ?_, ?_⟩
  · unfold c5Run
    rw [watchersWorld_eq]
    simp only [change, mkVarState, List.getElem?_cons_zero, List.set_cons_zero]
    rw [exec_dispatch_eq]
    simp only [List.getElem?_cons_zero, lookup_tick]
    rw [exec_handler_ontick, exec_tick_eq]
    simp only [List.getElem?_cons_zero, ite_tf, List.set_cons_zero]
    rw [exec_subvars_nil]
    simp only [List.getElem?_cons_zero, List.set_cons_zero]
    rw [notify_watchers (List.range k) (k + 2) 0 0
      [({ name := "v", lastValue := y, newValue := y, changed := false,
          handlers := [(Key.tick, Handler.onTickH)],
          subscribers := List.map SubCb.watcher (List.range k),
          subvars := [] } : VarState)]
      ({ name := "v", lastValue := y, newValue := y, changed := false,
         handlers := [(Key.tick, Handler.onTickH)],
         subscribers := List.map SubCb.watcher (List.range k),
         subvars := [] } : VarState) (by simp) rfl]
    simp [List.length_range]
  · exact fun a b c h => notifyEvents_payload k 0 0 y a b c h
  · intro hxy a b hmem
    exact hxy (notifyEvents_payload k 0 0 y a b x hmem)

/-- Witness for C5 at `k = 2`, `x = 1`, `y = 2`: the run commits 2, the
trace is exactly one notification per subscriber carrying 2, and no
notification carries the overwritten 1. -/
theorem C5_last_write_wins_witness :
    c5Run 2 (Val.int 0) (Val.int 1) (Val.int 2) =
      some ([{ mkVarState "v" (Val.int 0) with
                 lastValue := Val.int 2, newValue := Val.int 2,
                 subscribers := [SubCb.watcher 0, SubCb.watcher 1] }],
            [(0, 0, Val.int 2), (0, 1, Val.int 2)]) ∧
    (0, 0, Val.int 1) ∉ notifyEvents 0 0 (Val.int 2) 2 := by
  constructor
  · have h := (C5_last_write_wins 2 (Val.int 0) (Val.int 1) (Val.int 2)).1
    simpa [notifyEvents, List.range_succ] using h
  · exact (C5_last_write_wins 2 (Val.int 0) (Val.int 1) (Val.int 2)).2.2 (by decide) 0 0

/-! Widget tree model for the dispatch / bubble protocol (`Widget`, `Group`,
`Reactive` in src/cget/base.py and src/lib/base.py).  Handler bodies are
irrelevant to the routing claims, so a handler table maps key tokens to
opaque handler names; `wdispatch` returns the list of actions performed:
which handler was invoked, and which widget's `bubble` ran with which
event. -/

/-- Event object (the frozen `Event` dataclass): a key/payload pair. -/
structure WEvent where
  key : Nat
  payload : Val
  deriving DecidableEq, Repr

/-- Actions observable during a dispatch: `invoked wid h p` means widget
`wid`'s registered handler `h` was called with payload `p`; `bubbled wid ev`
means widget `wid`'s `bubble(ev)` ran. -/
inductive WAct where
  | invoked : Nat → Nat → Val → WAct
  | bubbled : Nat → WEvent → WAct
  deriving DecidableEq, Repr

/-- Widget trees: a plain widget with a handler table (default no-op
`bubble`), a `Group` (bubble forwards to every child in list order), and a
`Reactive` (bubble forwards to its current rendered sub-widget). -/
inductive WTree where
  | plain : Nat → List (Nat × Nat) → WTree
  | group : Nat → List (Nat × Nat) → List WTree → WTree
  | reactive : Nat → List (Nat × Nat) → WTree → WTree

def WTree.wid : WTree → Nat
  | WTree.plain i _ => i
  | WTree.group i _ _ => i
  | WTree.reactive i _ _ => i

def WTree.handlers : WTree → List (Nat × Nat)
  | WTree.plain _ hs => hs
  | WTree.group _ hs _ => hs
  | WTree.reactive _ hs _ => hs

mutual
/-- Widget.dispatch: `if h := self._handlers.get(key): h(payload) else:
self.bubble(Event(key, payload))`, with `bubble` as overridden by `Group`
(forward to every child) and `Reactive` (forward to the wrapped widget);
the default `bubble` is a no-op. -/
def wdispatch : WTree → Nat → Val → List WAct
  | t, k, p =>
    match t.handlers.lookup k with
    | some h => [WAct.invoked t.wid h p]
    | none =>
      WAct.bubbled t.wid ⟨k, p⟩ ::
        (match t with
         | WTree.plain _ _ => []
         | WTree.group _ _ cs => wdispatchList cs k p
         | WTree.reactive _ _ inner => wdispatch inner k p)

def wdispatchList : List WTree → Nat → Val → List WAct
  | [], _, _ => []
  | c :: cs, k, p => wdispatch c k p ++ wdispatchList cs k p
end

/-- The bubble behaviour on its own: no-op for a plain widget, fan-out for
`Group`, forward for `Reactive`. -/
def wbubble : WTree → Nat → Val → List WAct
  | WTree.plain _ _, _, _ => []
  | WTree.group _ _ cs, k, p => wdispatchList cs k p
  | WTree.reactive _ _ inner, k, p => wdispatch inner k p

theorem wdispatch_eq (t : WTree) (k : Nat) (p : Val) :
    wdispatch t k p =
      match t.handlers.lookup k with
      | some h => [WAct.invoked t.wid h p]
      | none => WAct.bubbled t.wid ⟨k, p⟩ :: wbubble t k p := by
  cases t <;> rw [wdispatch] <;> rfl

/-- C6: dispatch precedence on any widget.  If a handler is registered for
key `K`, dispatching `K` performs exactly that handler invocation — in
particular `bubble` never runs.  If no handler is registered, the widget's
own `bubble` runs exactly once, with an `Event` carrying `K` and the
payload, and no handler of this widget is invoked — all remaining actions
come from the recursive forwarding performed by `bubble`. -/
theorem C6_dispatch_precedence (t : WTree) (k : Nat) (p : Val) :
    (∀ h, t.handlers.lookup k = some h → wdispatch t k p = [WAct.invoked t.wid h p]) ∧
    (t.handlers.lookup k = none →
      wdispatch t k p = WAct.bubbled t.wid ⟨k, p⟩ :: wbubble t k p) := by
  constructor
  · intro h hh; rw [wdispatch_eq, hh]
  · intro hn; rw [wdispatch_eq, hn]

/-- Witness for C6: a widget with a handler for key 1 dispatches key 1 to
that handler only; a widget with no handler for key 2 bubbles exactly
once. -/
theorem C6_dispatch_precedence_witness :
    wdispatch (WTree.plain 0 [(1, 10)]) 1 (Val.int 3) = [WAct.invoked 0 10 (Val.int 3)] ∧
    wdispatch (WTree.plain 4 []) 2 (Val.int 3) =
      WAct.bubbled 4 ⟨2, Val.int 3⟩ :: wbubble (WTree.plain 4 []) 2 (Val.int 3) :=
  ⟨(C6_dispatch_precedence (WTree.plain 0 [(1, 10)]) 1 (Val.int 3)).1 10 rfl,
   (C6_dispatch_precedence (WTree.plain 4 []) 2 (Val.int 3)).2 rfl⟩

/-- Scenario tree for C4: a `Group` containing a `Reactive` (whose handler
table holds only its change key `ck`, wrapping a plain rendered widget) and
a key-listening child (whose handler table holds only `ok`). -/
def c4Tree (ck ok : Nat) : WTree :=
  WTree.group 0 [] [WTree.reactive 1 [(ck, 10)] (WTree.plain 2 []), WTree.plain 3 [(ok, 11)]]

/-- C4: dispatching a key event `kk` matched by no handler anywhere in the
group completes normally: the event bubbles through the group to every
child (and through the `Reactive` to its rendered sub-widget), reaches no
handler (the action list contains no `invoked` action), and is silently
dropped. -/
theorem C4_unhandled_key_dropped (ck ok kk : Nat) (p : Val)
    (hck : ck ≠ kk) (hok : ok ≠ kk) :
    wdispatch (c4Tree ck ok) kk p =
      [WAct.bubbled 0 ⟨kk, p⟩, WAct.bubbled 1 ⟨kk, p⟩, WAct.bubbled 2 ⟨kk, p⟩,
       WAct.bubbled 3 ⟨kk, p⟩] ∧
    (∀ (wid h : Nat) (pp : Val), WAct.invoked wid h pp ∉ wdispatch (c4Tree ck ok) kk p) := by
  have h1 : (kk == ck) = false := by
    simpa using (Ne.symm hck)
  have h2 : (kk == ok) = false := by
    simpa using (Ne.symm hok)
  have he : wdispatch (c4Tree ck ok) kk p =
      [WAct.bubbled 0 ⟨kk, p⟩, WAct.bubbled 1 ⟨kk, p⟩, WAct.bubbled 2 ⟨kk, p⟩,
       WAct.bubbled 3 ⟨kk, p⟩] := by
    rw [c4Tree, wdispatch_eq]
    simp only [WTree.handlers, WTree.wid, List.lookup_nil, wbubble]
    rw [wdispatchList, wdispatch_eq]
    simp only [WTree.handlers, WTree.wid, List.lookup, h1, wbubble]
    rw [wdispatch_eq]
    simp only [WTree.handlers, WTree.wid, List.lookup_nil, wbubble]
    rw [wdispatchList, wdispatch_eq]
    simp only [WTree.handlers, WTree.wid, List.lookup, h2, wbubble]
    rw [wdispatchList]
    rfl
  refine ⟨he, ?_⟩
  intro wid h pp hmem
  rw [he] at hmem
  simp at hmem

/-- Witness for C4 at concrete distinct keys. -/
theorem C4_unhandled_key_dropped_witness :
    wdispatch (c4Tree 5 6) 7 (Val.int 0) =
      [WAct.bubbled 0 ⟨7, Val.int 0⟩, WAct.bubbled 1 ⟨7, Val.int 0⟩,
       WAct.bubbled 2 ⟨7, Val.int 0⟩, WAct.bubbled 3 ⟨7, Val.int 0⟩] ∧
    WAct.invoked 1 10 (Val.int 0) ∉ wdispatch (c4Tree 5 6) 7 (Val.int 0) :=
  ⟨(C4_unhandled_key_dropped 5 6 7 (Val.int 0) (by decide) (by decide)).1,
   (C4_unhandled_key_dropped 5 6 7 (Val.int 0) (by decide) (by decide)).2 1 10 (Val.int 0)⟩

/-! The `e_change` registry (`_E_CHANGE = {}`;
`def e_change(_t, prefix="base._change", /): return _E_CHANGE.setdefault(prefix, _t)`).
An `EKey` models the `EventKey[...]` alias object passed as `_t`: `typeTag`
is the runtime identity of the payload type parameter, `uid` the identity
of the alias object itself.  The registry is the module-level dict, an
association list keyed by the prefix string. -/

structure EKey where
  typeTag : Nat
  uid : Nat
  deriving DecidableEq, Repr

abbrev ChangeRegistry := List (String × EKey)

/-- e_change: `dict.setdefault(prefix, _t)` — if the prefix is present
return the stored key unchanged, otherwise store `_t` under the prefix and
return it.  The payload type argument `_t` takes no part in the lookup. -/
def e_change (t : EKey) (pfx : String) (reg : ChangeRegistry) : EKey × ChangeRegistry :=
  match reg.lookup pfx with
  | some k => (k, reg)
  | none => (t, reg ++ [(pfx, t)])

/-- C3 (amended): the registry memoizes one process-wide key per PREFIX
alone.  A second call with the same prefix returns the key stored by the
first call, regardless of the payload type of either call (so calls with
the same payload type and prefix do get the identical key object, but so do
calls with different payload types under the same prefix — subscribers
share a change channel if and only if they share a prefix); calls with a
different, fresh prefix get their own key back. -/
theorem C3_registry_per_prefix (t t2 : EKey) (p q : String) (hpq : p ≠ q) :
    (e_change t p []).1 = t ∧
    (e_change t2 p ((e_change t p []).2)).1 = t ∧
    (e_change t2 q ((e_change t p []).2)).1 = t2 := by
    refine ⟨rfl, ?_, ?_⟩
    · simp [e_change, List.lookup]
    · have h : (q == p) = false := by simpa using (Ne.symm hpq)
      simp [e_change, List.lookup, h]

/-- Witness for C3 at concrete keys and prefixes. -/
theorem C3_registry_per_prefix_witness :
    (e_change ⟨10, 1⟩ "base.change_t" []).1 = ⟨10, 1⟩ ∧
    (e_change ⟨20, 2⟩ "base.change_t" ((e_change ⟨10, 1⟩ "base.change_t" []).2)).1 = ⟨10, 1⟩ ∧
    (e_change ⟨20, 2⟩ "base.change_u" ((e_change ⟨10, 1⟩ "base.change_t" []).2)).1 = ⟨20, 2⟩ :=
  C3_registry_per_prefix ⟨10, 1⟩ ⟨20, 2⟩ "base.change_t" "base.change_u" (by decide)

/-- Counterexample to C3 as stated: two calls with the same prefix but
DIFFERENT payload types (`typeTag` 10 vs 20, distinct alias objects `uid` 1
vs 2) return the identical key object — the registry collapses payload
types, contradicting "two calls with different payload types (even under
the same prefix) return distinct keys". -/
theorem C3_type_ignored_cex :
    (e_change ⟨20, 2⟩ "base._change" ((e_change ⟨10, 1⟩ "base._change" []).2)).1 =
      (e_change ⟨10, 1⟩ "base._change" []).1 ∧
    (⟨10, 1⟩ : EKey).typeTag ≠ (⟨20, 2⟩ : EKey).typeTag := by
  constructor
  · simp [e_change, List.lookup]
  · decide
